import Mathlib

/-!
Verification development for the Doctor Who library enrichment engine.

The definitions below are a shallow embedding of the Python source:
* `domain/value_objects/enrichment_status.py`, `content_type.py`
* `domain/entities/library_item.py`
* `infrastructure/external/tardis_wiki_service.py`
* `application/services/enrichment_service.py`

Machine-level details are modelled as follows: Python `str` becomes `String`
(text algorithms work on `List Char`), Python `float` scores become integer
TENTHS in `ℤ` — every score constant in the source is a decimal tenth, so
`0.6 ↦ 6`, …, the `1.0` cap `↦ 10` and the `0.8`/`0.7` thresholds `↦ 8`/`7`,
an exact and order-preserving change of scale — `datetime.utcnow()` becomes an
explicit `now : Nat` parameter, exceptions become `Except`, and the external
wiki (search endpoint / page fetch) becomes an explicit environment record.
-/

namespace DWL

/-- `EnrichmentStatus` from `enrichment_status.py`. -/
inductive EnrichmentStatus where
  | pending
  | enriched
  | failed
  | skipped
deriving DecidableEq, Repr

/-- `ContentType` from `content_type.py` (all 38 enum members). -/
inductive ContentType where
  | bbcTelevision
  | bbcTelevisionClass
  | bbcTelevisionSJA
  | bbcTelevisionStarz
  | disneyTelevision
  | tv
  | bbcAudio
  | bbcAudioDoomsDay
  | bbcAudioBigFinish
  | bbcRadio4
  | bigFinish
  | bigFinishBernice
  | bigFinishDarkGallifrey
  | bigFinishDonna
  | bigFinishDoomsDay
  | bigFinishJagoLitefoot
  | bigFinishJenny
  | bigFinishMaster
  | bigFinishSusansWar
  | bigFinishNewEarth
  | bigFinishRiverSong
  | bigFinishCaptainJack
  | bigFinishPaternoster
  | bigFinishRobots
  | bigFinishWarDoctor
  | bigFinishWarMaster
  | dwmComic
  | dwmComicStrip
  | titanComics
  | bbcComicCreator
  | bbcBooks
  | missingAdventures
  | bbcMinisode
  | bbcMinisodeIdents
  | bbcMinisodeTrailer
  | bbcTvMinisode
  | bbciWebcast
  | bigFinishWebcast
  | bbcOnline
  | bbcAdventureGames
  | documentary
deriving DecidableEq, Repr

/-- `ContentType.get_wiki_suffix` from `content_type.py`: the fixed
per-content-type disambiguation label used by the query generator. -/
def getWikiSuffix : ContentType → String
  | .bbcAudio | .bbcAudioDoomsDay | .bbcAudioBigFinish | .bbcRadio4
  | .bigFinish | .bigFinishBernice | .bigFinishDarkGallifrey | .bigFinishDonna
  | .bigFinishDoomsDay | .bigFinishJagoLitefoot | .bigFinishJenny
  | .bigFinishMaster | .bigFinishSusansWar | .bigFinishNewEarth
  | .bigFinishRiverSong | .bigFinishCaptainJack | .bigFinishPaternoster
  | .bigFinishRobots | .bigFinishWarDoctor | .bigFinishWarMaster => "audio story"
  | .bbcTelevision | .bbcTelevisionClass | .bbcTelevisionSJA
  | .bbcTelevisionStarz | .disneyTelevision | .tv
  | .bbcMinisode | .bbcMinisodeIdents | .bbcMinisodeTrailer
  | .bbcTvMinisode => "TV story"
  | .dwmComic | .dwmComicStrip | .titanComics | .bbcComicCreator => "comic story"
  | .bbcBooks | .missingAdventures => "novel"
  | .bbciWebcast | .bigFinishWebcast | .bbcOnline => "webcast"
  | .bbcAdventureGames => "video game"
  | .documentary => "documentary"

/-- `LibraryItem` from `library_item.py`: the full dataclass.  Dates and
timestamps are opaque `Nat`s, the UUID is an opaque `Nat`. -/
structure LibraryItem where
  id : Nat
  title : String
  displayTitle : Option String
  storyTitle : Option String
  episodeTitle : Option String
  serialTitle : Option String
  contentType : Option ContentType
  sectionName : Option String
  groupName : Option String
  doctor : Option String
  companions : Option String
  writer : Option String
  director : Option String
  producer : Option String
  storyNumber : Option String
  series : Option String
  format : Option String
  duration : Option String
  broadcastDate : Option Nat
  releaseDate : Option Nat
  coverDate : Option Nat
  enrichmentStatus : EnrichmentStatus
  enrichmentConfidence : ℤ
  enrichmentError : Option String
  wikiUrl : Option String
  wikiSummary : Option String
  wikiImageUrl : Option String
  wikiSearchTerm : Option String
  createdAt : Nat
  updatedAt : Nat
deriving DecidableEq, Repr

/-- Python truthiness of an `Optional[str]`: `None` and `""` are falsy. -/
def truthyOpt : Option String → Bool
  | none => false
  | some s => !(s == "")

/-- `LibraryItem.can_be_enriched`. -/
def canBeEnriched (item : LibraryItem) : Bool :=
  item.enrichmentStatus == EnrichmentStatus.pending

instance : BEq EnrichmentStatus := ⟨fun a b => decide (a = b)⟩

/-- `LibraryItem.mark_enriched`. -/
def markEnriched (item : LibraryItem) (confidence : ℤ) (wikiUrl summary searchTerm : String)
    (now : Nat) : LibraryItem :=
  { item with
    enrichmentStatus := .enriched
    enrichmentConfidence := confidence
    enrichmentError := none
    wikiUrl := some wikiUrl
    wikiSummary := some summary
    wikiSearchTerm := some searchTerm
    updatedAt := now }

/-- `LibraryItem.mark_enrichment_failed`; `search_term` is only stored when
truthy (`if search_term:`). -/
def markEnrichmentFailed (item : LibraryItem) (error : String) (searchTerm : Option String)
    (now : Nat) : LibraryItem :=
  { item with
    enrichmentStatus := .failed
    enrichmentError := some error
    wikiSearchTerm := if truthyOpt searchTerm then searchTerm else item.wikiSearchTerm
    updatedAt := now }

/-- `LibraryItem.mark_enrichment_skipped`; `search_term` is only stored when
truthy (`if search_term:`). -/
def markEnrichmentSkipped (item : LibraryItem) (reason : String) (searchTerm : Option String)
    (now : Nat) : LibraryItem :=
  { item with
    enrichmentStatus := .skipped
    enrichmentError := some reason
    wikiSearchTerm := if truthyOpt searchTerm then searchTerm else item.wikiSearchTerm
    updatedAt := now }

/-- `LibraryItem.reset_enrichment`. -/
def resetEnrichment (item : LibraryItem) (now : Nat) : LibraryItem :=
  { item with
    enrichmentStatus := .pending
    enrichmentConfidence := 0
    enrichmentError := none
    wikiUrl := none
    wikiSummary := none
    wikiImageUrl := none
    wikiSearchTerm := none
    updatedAt := now }

/-- `LibraryItem.get_search_titles`: story title (when truthy and distinct
from the primary title), then serial title (when truthy and distinct from
both), then the primary title (when truthy).  Note that a truthy
`serial_title` compares unequal to a `story_title` of `None` in Python,
hence the `item.storyTitle ≠ some sl` clause. -/
def getSearchTitles (item : LibraryItem) : List String :=
  (match item.storyTitle with
   | some st => if st ≠ "" ∧ st ≠ item.title then [st] else []
   | none => []) ++
  (match item.serialTitle with
   | some sl =>
     if sl ≠ "" ∧ sl ≠ item.title ∧ item.storyTitle ≠ some sl then [sl] else []
   | none => []) ++
  (if item.title ≠ "" then [item.title] else [])

/-- The fixed fallback disambiguation vocabulary from
`TardisWikiService._generate_search_queries`. -/
def commonDisambiguations : List String :=
  ["TV story", "audio story", "comic story", "novel", "webcast",
   "home video", "short story"]

/-- The inner loop of `_generate_search_queries`: append each common
disambiguation query for `title`, skipping any query string already
emitted. -/
def dabQueries (title : String) (qs : List String) : List String :=
  commonDisambiguations.foldl (fun qs dab =>
    let searchQuery := title ++ " (" ++ dab ++ ")"
    if searchQuery ∈ qs then qs else qs ++ [searchQuery]) qs

/-- The body of the per-title loop of `_generate_search_queries`: the
content-type suffix query (appended unconditionally, with no duplicate
check), then the common disambiguation fallbacks, then the plain title
(appended unconditionally). -/
def queriesForTitle (item : LibraryItem) (qs : List String) (title : String) :
    List String :=
  let qs := match item.contentType with
    | some ct => qs ++ [title ++ " (" ++ getWikiSuffix ct ++ ")"]
    | none => qs
  dabQueries title qs ++ [title]

/-- `TardisWikiService._generate_search_queries`.  For each search title:
the content-type suffix query, the common disambiguation queries, the
plain title; finally the broad quoted query for the first search title;
truncated to 12. -/
def generateSearchQueries (item : LibraryItem) : List String :=
  let searchTitles := getSearchTitles item
  let queries := searchTitles.foldl (queriesForTitle item) []
  let queries := match searchTitles with
    | [] => queries
    | t :: _ => queries ++ ["\"" ++ t ++ "\" Doctor Who"]
  queries.take 12

/-! ## Text normalizer (`TardisWikiService._clean_text`)

`_clean_text` applies, in order: `re.sub(r"\s+", " ", ·)` (collapse
whitespace runs to one space), `re.sub(r"\[.*?\]", "", ·)` (drop non-greedy
bracketed reference markers; `.` does not match a newline),
`re.sub(r"\x7b\x7b.*?\x7d\x7d", "", ·)` (drop non-greedy double-brace template
markup), then `str.strip()`.  These are modelled character-exactly on
`List Char`. -/

/-- The ASCII whitespace characters matched by Python `\s` / `str.strip()`. -/
def isPySpace (c : Char) : Bool :=
  c == ' ' || c == '\t' || c == '\n' || c == '\r' ||
  c == Char.ofNat 11 || c == Char.ofNat 12

/-- `re.sub(r"\s+", " ", ·)`: every maximal run of whitespace becomes a
single `' '`. -/
def collapseWs : List Char → List Char
  | [] => []
  | [c] => if isPySpace c then [' '] else [c]
  | c1 :: c2 :: rest =>
    if isPySpace c1 then
      if isPySpace c2 then collapseWs (c2 :: rest)
      else ' ' :: collapseWs (c2 :: rest)
    else c1 :: collapseWs (c2 :: rest)

/-- Remove trailing Python whitespace (the right half of `str.strip()`). -/
def rstripSp : List Char → List Char
  | [] => []
  | c :: rest =>
    match rstripSp rest with
    | [] => if isPySpace c then [] else [c]
    | r => c :: r

/-- `str.strip()`: drop leading and trailing Python whitespace. -/
def pyStrip (l : List Char) : List Char :=
  rstripSp (l.dropWhile isPySpace)

/-- Index of the first `']'` in `l`, provided no `'\n'` occurs before it
(regex `.` does not cross newlines); the closing position of a non-greedy
`\[.*?\]` match started just before `l`. -/
def findBracketClose : List Char → Option Nat
  | [] => none
  | c :: rest =>
    if c = ']' then some 0
    else if c = '\n' then none
    else (findBracketClose rest).map (· + 1)

/-- Worker for `removeBrackets`; the `fuel` argument only makes the
recursion structural and never runs out when started at the list length
(each step consumes at least one character). -/
def removeBracketsAux : Nat → List Char → List Char
  | 0, l => l
  | _ + 1, [] => []
  | fuel + 1, c :: rest =>
    if c = '[' then
      match findBracketClose rest with
      | some k => removeBracketsAux fuel (rest.drop (k + 1))
      | none => '[' :: removeBracketsAux fuel rest
    else c :: removeBracketsAux fuel rest

/-- `re.sub(r"\[.*?\]", "", ·)`: remove every leftmost-shortest bracketed
chunk, scanning left to right. -/
def removeBrackets (l : List Char) : List Char :=
  removeBracketsAux l.length l

/-- Position of the first `"\x7d\x7d"` in `l` with no `'\n'` before it; the
closing position of a non-greedy `\x7b\x7b.*?\x7d\x7d` match started just
before `l`. -/
def findBraceClose : List Char → Option Nat
  | '\x7d' :: '\x7d' :: _ => some 0
  | [] => none
  | c :: rest =>
    if c = '\n' then none
    else (findBraceClose rest).map (· + 1)

/-- Worker for `removeBraces`; the `fuel` argument only makes the recursion
structural and never runs out when started at the list length. -/
def removeBracesAux : Nat → List Char → List Char
  | 0, l => l
  | _ + 1, [] => []
  | _ + 1, [c] => [c]
  | fuel + 1, c1 :: c2 :: rest =>
    if c1 = '\x7b' ∧ c2 = '\x7b' then
      match findBraceClose rest with
      | some k => removeBracesAux fuel (rest.drop (k + 2))
      | none => c1 :: removeBracesAux fuel (c2 :: rest)
    else c1 :: removeBracesAux fuel (c2 :: rest)

/-- `re.sub(r"\x7b\x7b.*?\x7d\x7d", "", ·)`: remove every leftmost-shortest
double-brace chunk, scanning left to right. -/
def removeBraces (l : List Char) : List Char :=
  removeBracesAux l.length l

/-- `TardisWikiService._clean_text`. -/
def cleanText (text : String) : String :=
  if text = "" then ""
  else
    String.mk (pyStrip (removeBraces (removeBrackets (collapseWs text.toList))))

/-! ## Page fetcher (`TardisWikiService._get_page_content`) -/

/-- The structured content dict built by `_get_page_content`. -/
structure PageContent where
  title : String
  url : String
  content : String
  infobox : List (String × String)
  categories : List String
  summary : String
  images : List String
deriving DecidableEq, Repr

/-- The parsed HTML of a fetched page, as seen through the BeautifulSoup
queries `_get_page_content` makes: the text of each `<p>` in the content
div, the `(th, td)` text pairs of the infobox table when one exists, the
text of each category link, and the `src` of each `<img>` whose `src`
matches the raster-extension regex (`""` standing for a missing `src`
attribute, which Python's truthiness filter drops). -/
structure PageHtml where
  paragraphs : List String
  infoboxRows : Option (List (String × String))
  categoryLinks : List String
  imgSrcs : List String
deriving DecidableEq, Repr

/-- The outcome of the HTTP GET for a page: a parsed body, or an HTTP
error (`raise_for_status` / transport failure) with its optional status. -/
inductive HttpResponse where
  | success (html : PageHtml)
  | httpError (status : Option Nat)
deriving DecidableEq, Repr

/-- `ExternalServiceException` from `shared/exceptions/infrastructure.py`,
as raised by the wiki service. -/
structure ExternalServiceException where
  serviceName : String
  operation : String
  message : String
  statusCode : Option Nat
deriving DecidableEq, Repr

/-- `pre.toList.isPrefixOf s.toList`, i.e. Python `s.startswith(pre)`. -/
def pyStartsWith (s pre : String) : Bool :=
  pre.toList.isPrefixOf s.toList

/-- Does a stripped paragraph text qualify as the page summary?  From the
loop in `_get_page_content`: non-empty, strictly more than 50 characters,
and not starting with `"\x7b\x7b"` or `"Fast Times"`.  `t` is the already
stripped text. -/
def summaryQualifies (t : List Char) : Bool :=
  !(t.isEmpty) && decide (50 < t.length) &&
  !(pyStartsWith (String.mk t) "\x7b\x7b") &&
  !(pyStartsWith (String.mk t) "Fast Times")

/-- The summary-extraction loop of `_get_page_content`: the cleaned text of
the first qualifying paragraph, `""` when none qualifies. -/
def extractSummary : List String → String
  | [] => ""
  | p :: rest =>
    let t := pyStrip p.toList
    if summaryQualifies t then cleanText (String.mk t)
    else extractSummary rest

/-- `TardisWikiService._extract_infobox_data`: clean each `(th, td)` text
pair and keep it when both are non-empty (the Python dict is modelled as
an association list in insertion order). -/
def extractInfoboxData (rows : List (String × String)) : List (String × String) :=
  rows.foldl (fun data kv =>
    let key := cleanText kv.1
    let value := cleanText kv.2
    if key ≠ "" ∧ value ≠ "" then data ++ [(key, value)] else data) []

/-- `urljoin(base_url, quote(title.replace(" ", "_")))`, with percent
encoding left abstract: spaces become underscores. -/
def buildPageUrl (baseUrl title : String) : String :=
  baseUrl ++ String.mk (title.toList.map (fun c => if c = ' ' then '_' else c))

/-- `TardisWikiService._get_page_content` given the HTTP outcome for the
page.  An HTTP failure becomes the typed `ExternalServiceException`
(operation `"get_page_content"`, message carrying the page title, optional
status code); a parsed body always yields a content structure — there is no
code path returning `none`. -/
def getPageContent (baseUrl pageTitle : String) (resp : HttpResponse) :
    Except ExternalServiceException (Option PageContent) :=
  match resp with
  | .httpError status =>
    .error ⟨"TARDIS Wiki", "get_page_content",
            "Failed to get page content: " ++ pageTitle, status⟩
  | .success html =>
    .ok (some
      { title := pageTitle
        url := buildPageUrl baseUrl pageTitle
        content := ""
        infobox := match html.infoboxRows with
          | some rows => extractInfoboxData rows
          | none => []
        categories := html.categoryLinks
        summary := extractSummary html.paragraphs
        images := (html.imgSrcs.take 3).filter (fun s => s ≠ "") })

/-! ## Confidence scorer (`TardisWikiService._calculate_confidence_score`)

Scores are integer tenths (see the header): the source's weights
`0.6/0.4/0.3/0.3/0.2/0.1` become `6/4/3/3/2/1`, the `1.0` cap becomes
`10`, which reproduces the heuristic's arithmetic exactly. -/

/-- Python `str.lower()` (character-wise). -/
def lowerStr (s : String) : String :=
  String.mk (s.toList.map Char.toLower)

/-- Python `needle in hay` for strings. -/
def containsStr (hay needle : String) : Bool :=
  decide (needle.toList <:+: hay.toList)

/-- Python `str.split()`: the maximal non-empty chunks between whitespace
runs. -/
def pySplit (s : String) : List String :=
  ((s.toList.splitOnP isPySpace).filter (fun w => !w.isEmpty)).map String.mk

/-- The fixed domain vocabulary checked against page content and summary. -/
def doctorWhoTerms : List String :=
  ["doctor", "tardis", "gallifrey", "dalek", "cybermen", "time lord", "bbc"]

/-- Executable `min` on `ℤ` (the scorer's `min(score, 1.0)`);
definitionally an `if`, unlike Mathlib's lattice `min`, so concrete scores
evaluate. -/
def scoreMin (a b : ℤ) : ℤ := if a ≤ b then a else b

theorem scoreMin_eq_min (a b : ℤ) : scoreMin a b = min a b := (min_def a b).symm

/-- The title-matching signal: containment either way scores `0.6`, else a
shared word of length `> 2` scores `0.4` (mutually exclusive, containment
first).  Both arguments are already lowercased. -/
def titleScore (itemTitle pageTitle : String) : ℤ :=
  if containsStr pageTitle itemTitle || containsStr itemTitle pageTitle then 6
  else if (pySplit itemTitle).any
    (fun word => decide (2 < word.length) && containsStr pageTitle word) then 4
  else 0

/-- The four signals of `_calculate_confidence_score` that do not involve
the item title: `+0.3` when the page URL contains `"tardis"`, `+0.3` when a
domain-vocabulary term occurs in content or summary, `+0.2` when the page
has a category, `+0.1` when it has a summary or content. -/
def bonusScore (page : PageContent) : ℤ :=
  (if containsStr (lowerStr page.url) "tardis" then 3 else 0) +
  (if doctorWhoTerms.any (fun term =>
      containsStr (lowerStr (page.content ++ " " ++ page.summary)) term ||
      containsStr (lowerStr page.summary) term) then 3 else 0) +
  (if page.categories ≠ [] then 2 else 0) +
  (if page.summary ≠ "" ∨ page.content ≠ "" then 1 else 0)

/-- `TardisWikiService._calculate_confidence_score`: the title signal is
guarded by `if item_title and page_title:` (both lowercased titles must be
non-empty), the bonuses are added, and the sum is capped at `1.0`. -/
def calculateConfidenceScore (item : LibraryItem) (page : PageContent) : ℤ :=
  scoreMin ((if lowerStr item.title ≠ "" ∧ lowerStr page.title ≠ "" then
          titleScore (lowerStr item.title) (lowerStr page.title)
        else 0) + bonusScore page) 10

/-! ## Enrichment orchestrator
(`TardisWikiService._search_for_item_internal` / `enrich_item`) -/

/-- `WikiSearchResult` from `domain/services/wiki_service.py`. -/
structure WikiSearchResult where
  title : String
  url : String
  summary : String
  confidence : ℤ
  searchTerm : String
  imageUrl : Option String
deriving DecidableEq, Repr

/-- One hit returned by `_search_wiki` (title and constructed page URL;
snippet and size are never read by the orchestrator). -/
structure SearchRow where
  title : String
  url : String
deriving DecidableEq, Repr

/-- The external wiki, as the orchestrator observes it: what the search
endpoint returns for a query, and what fetching a page by title yields.
`.error` models a raised exception (network/HTTP failure, or any other
exception inside the per-query `try`). -/
structure WikiEnv where
  search : String → Except Unit (List SearchRow)
  fetch : String → Except Unit (Option PageContent)

/-- The mutable loop state of `_search_for_item_internal`. -/
structure SearchState where
  bestResult : Option WikiSearchResult
  bestScore : ℤ
deriving DecidableEq, Repr

/-- The candidate loop of `_search_for_item_internal` for one query.  The
returned `Bool` is `true` when the loop body finished without raising (so
control reaches the `best_score > 0.8` check of the query loop).

A candidate page with an empty image list reproduces the source exactly:
`best_score = confidence` is assigned first, then building the
`WikiSearchResult` evaluates `page_content.get("images", [None])[0]`, and
since the `"images"` key is always present this is `[][0]` — an
`IndexError` that aborts the query with `best_score` updated but
`best_result` untouched. -/
def processCandidates (item : LibraryItem) (env : WikiEnv) (query : String) :
    SearchState → List SearchRow → SearchState × Bool
  | st, [] => (st, true)
  | st, row :: rest =>
    match env.fetch row.title with
    | .error _ => (st, false)
    | .ok none => processCandidates item env query st rest
    | .ok (some page) =>
      let confidence := calculateConfidenceScore item page
      if st.bestScore < confidence then
        match page.images with
        | [] => ({ st with bestScore := confidence }, false)
        | imageUrl :: _ =>
          let st' : SearchState :=
            { bestResult := some
                { title := row.title
                  url := row.url
                  summary := page.summary
                  confidence := confidence
                  searchTerm := query
                  imageUrl := some imageUrl }
              bestScore := confidence }
          if (8 : ℤ) < confidence then (st', true)
          else processCandidates item env query st' rest
      else
        if (8 : ℤ) < confidence then (st, true)
        else processCandidates item env query st rest

/-- The query loop of `_search_for_item_internal`: a raised search or a
raised candidate-loop step is caught (`continue`), and only a normally
finished query body reaches the `best_score > 0.8` early exit. -/
def searchLoop (item : LibraryItem) (env : WikiEnv) :
    SearchState → List String → SearchState
  | st, [] => st
  | st, query :: rest =>
    let step : SearchState × Bool :=
      match env.search query with
      | .error _ => (st, false)
      | .ok rows => processCandidates item env query st rows
    if step.2 = true ∧ (8 : ℤ) < step.1.bestScore then step.1
    else searchLoop item env step.1 rest

/-- `TardisWikiService._search_for_item_internal`: run the query loop over
the generated queries and return the best result when `best_score` clears
the configured confidence threshold. -/
def searchForItemInternal (item : LibraryItem) (env : WikiEnv)
    (confidenceThreshold : ℤ) : Option WikiSearchResult :=
  let st := searchLoop item env ⟨none, 0⟩ (generateSearchQueries item)
  if confidenceThreshold ≤ st.bestScore then st.bestResult else none

/-- `TardisWikiService.enrich_item`, as a function of the outcome of
`search_for_item` — `.ok` for a normal return, `.error e` for an exception
escaping the search (caught by `enrich_item`'s own handler). -/
def enrichItem (item : LibraryItem)
    (searchOutcome : Except String (Option WikiSearchResult)) (now : Nat) :
    LibraryItem :=
  if canBeEnriched item then
    match searchOutcome with
    | .ok (some result) =>
      let item := markEnriched item result.confidence result.url result.summary
        result.searchTerm now
      match result.imageUrl with
      | some u => if u ≠ "" then { item with wikiImageUrl := some u } else item
      | none => item
    | .ok none =>
      markEnrichmentSkipped item "No suitable wiki page found"
        (getSearchTitles item).head? now
    | .error e =>
      markEnrichmentFailed item e (getSearchTitles item).head? now
  else item

/-- `enrich_item` composed with a completed (exception-free) search. -/
def enrichItemRun (item : LibraryItem) (env : WikiEnv)
    (confidenceThreshold : ℤ) (now : Nat) : LibraryItem :=
  enrichItem item (.ok (searchForItemInternal item env confidenceThreshold)) now

/-! ## Application service (`enrichment_service.py`) -/

/-- Import-time construction of a `LibraryItem` (the dataclass with its
default enrichment fields and `__post_init__` copying the title into
`display_title`). -/
def newLibraryItem (id : Nat) (title : String)
    (storyTitle episodeTitle serialTitle : Option String)
    (contentType : Option ContentType)
    (sectionName groupName doctor companions writer director producer
      storyNumber series format duration : Option String)
    (broadcastDate releaseDate coverDate : Option Nat) (now : Nat) :
    LibraryItem :=
  { id := id
    title := title
    displayTitle := some title
    storyTitle := storyTitle
    episodeTitle := episodeTitle
    serialTitle := serialTitle
    contentType := contentType
    sectionName := sectionName
    groupName := groupName
    doctor := doctor
    companions := companions
    writer := writer
    director := director
    producer := producer
    storyNumber := storyNumber
    series := series
    format := format
    duration := duration
    broadcastDate := broadcastDate
    releaseDate := releaseDate
    coverDate := coverDate
    enrichmentStatus := .pending
    enrichmentConfidence := 0
    enrichmentError := none
    wikiUrl := none
    wikiSummary := none
    wikiImageUrl := none
    wikiSearchTerm := none
    createdAt := now
    updatedAt := now }

/-- One row of the `SELECT ... WHERE enrichment_status = 'pending'` query in
`EnrichmentService.get_pending_items` (nullable columns are `Option`; the
`content_type` column is modelled after its `ContentType(...)`/`ValueError`
conversion, i.e. already as `Option ContentType`). -/
structure PendingRow where
  id : Nat
  title : Option String
  storyTitle : Option String
  sectionName : Option String
  wikiUrl : Option String
  wikiSummary : Option String
  episodeTitle : Option String
  serialTitle : Option String
  contentType : Option ContentType
deriving DecidableEq, Repr

/-- The `LibraryItem(...)` construction in
`EnrichmentService.get_pending_items`: status forced to Pending and
confidence to `0.0`, `wiki_url`/`wiki_summary` copied from the row, every
field not passed left at its dataclass default. -/
def rowToLibraryItem (row : PendingRow) (now : Nat) : LibraryItem :=
  let title := match row.title with
    | some t => if t ≠ "" then t else "Unknown Title"
    | none => "Unknown Title"
  { id := row.id
    title := title
    displayTitle := some title
    storyTitle := row.storyTitle
    episodeTitle := row.episodeTitle
    serialTitle := row.serialTitle
    contentType := row.contentType
    sectionName := row.sectionName
    groupName := none
    doctor := none
    companions := none
    writer := none
    director := none
    producer := none
    storyNumber := none
    series := none
    format := none
    duration := none
    broadcastDate := none
    releaseDate := none
    coverDate := none
    enrichmentStatus := .pending
    enrichmentConfidence := 0
    enrichmentError := none
    wikiUrl := row.wikiUrl
    wikiSummary := row.wikiSummary
    wikiImageUrl := none
    wikiSearchTerm := none
    createdAt := now
    updatedAt := now }

/-- One persisted row of `library_items`, with the columns touched by the
reset statements. -/
structure DbRow where
  id : Nat
  title : String
  enrichmentStatus : EnrichmentStatus
  enrichmentConfidence : ℤ
  enrichmentError : Option String
  wikiUrl : Option String
  wikiSummary : Option String
  wikiImageUrl : Option String
  wikiSearchTerm : Option String
  updatedAt : Nat
deriving DecidableEq, Repr

/-- The `SET` clause shared by both reset statements. -/
def resetRowFields (status : EnrichmentStatus) (now : Nat) (r : DbRow) : DbRow :=
  { r with
    enrichmentStatus := status
    enrichmentConfidence := 0
    enrichmentError := none
    wikiUrl := none
    wikiSummary := none
    wikiImageUrl := none
    wikiSearchTerm := none
    updatedAt := now }

/-- `EnrichmentService.reset_enrichment_status`: the bulk `UPDATE` without a
`WHERE` clause touches every row and returns the affected row count. -/
def resetEnrichmentStatus (db : List DbRow) (status : EnrichmentStatus)
    (now : Nat) : List DbRow × Nat :=
  (db.map (resetRowFields status now), db.length)

/-- `EnrichmentService.reset_single_item_enrichment`: the `UPDATE ... WHERE
id = ?` touches the matching rows and returns how many matched; there is no
existence check and no error path for a missing id. -/
def resetSingleItemEnrichment (db : List DbRow) (itemId : Nat)
    (status : EnrichmentStatus) (now : Nat) : List DbRow × Nat :=
  (db.map (fun r => if r.id = itemId then resetRowFields status now r else r),
   (db.filter (fun r => r.id = itemId)).length)

/-- The Pending-state invariant of the spec: a Pending item carries no
enrichment-sourced data, no error, and zero confidence. -/
def pendingInvariant (item : LibraryItem) : Prop :=
  item.enrichmentStatus = .pending →
    item.wikiUrl = none ∧ item.wikiSummary = none ∧ item.wikiImageUrl = none ∧
    item.wikiSearchTerm = none ∧ item.enrichmentError = none ∧
    item.enrichmentConfidence = 0

/-- Every field of a `LibraryItem` other than the enrichment fields, the
wiki-sourced fields and `updated_at`: identity, titles, classification,
personnel, production details, dates and `created_at`. -/
def coreFields (item : LibraryItem) :
    Nat × String × Option String × Option String × Option String ×
    Option String × Option ContentType × Option String × Option String ×
    Option String × Option String × Option String × Option String ×
    Option String × Option String × Option String × Option String ×
    Option String × Option Nat × Option Nat × Option Nat × Nat :=
  (item.id, item.title, item.displayTitle, item.storyTitle,
   item.episodeTitle, item.serialTitle, item.contentType, item.sectionName,
   item.groupName, item.doctor, item.companions, item.writer, item.director,
   item.producer, item.storyNumber, item.series, item.format, item.duration,
   item.broadcastDate, item.releaseDate, item.coverDate, item.createdAt)

/-- A convenient all-default item used as a base for concrete instances. -/
def baseItem : LibraryItem :=
  { id := 0, title := "", displayTitle := none, storyTitle := none,
    episodeTitle := none, serialTitle := none, contentType := none,
    sectionName := none, groupName := none, doctor := none, companions := none,
    writer := none, director := none, producer := none, storyNumber := none,
    series := none, format := none, duration := none, broadcastDate := none,
    releaseDate := none, coverDate := none, enrichmentStatus := .pending,
    enrichmentConfidence := 0, enrichmentError := none, wikiUrl := none,
    wikiSummary := none, wikiImageUrl := none, wikiSearchTerm := none,
    createdAt := 0, updatedAt := 0 }

/-! ## Theorems -/

/-- C10: every enrichment-state operation (`mark_enriched`,
`mark_enrichment_failed`, `mark_enrichment_skipped`, `reset_enrichment`)
modifies only the enrichment fields, the wiki-sourced fields and
`updated_at` — the record's identity, titles, content type, section/group,
personnel, production details, dates and `created_at` are unchanged — and
the failed/skipped marks leave the stored `wiki_search_term` unchanged when
called with no (or an empty) search term. -/
theorem c10_enrichment_ops_frame (item : LibraryItem) (confidence : ℤ)
    (url summary term error reason : String) (searchTerm : Option String)
    (now : Nat) :
    coreFields (markEnriched item confidence url summary term now) = coreFields item ∧
    coreFields (markEnrichmentFailed item error searchTerm now) = coreFields item ∧
    coreFields (markEnrichmentSkipped item reason searchTerm now) = coreFields item ∧
    coreFields (resetEnrichment item now) = coreFields item ∧
    (markEnrichmentFailed item error none now).wikiSearchTerm = item.wikiSearchTerm ∧
    (markEnrichmentFailed item error (some "") now).wikiSearchTerm = item.wikiSearchTerm ∧
    (markEnrichmentSkipped item reason none now).wikiSearchTerm = item.wikiSearchTerm ∧
    (markEnrichmentSkipped item reason (some "") now).wikiSearchTerm = item.wikiSearchTerm :=
  ⟨rfl, rfl, rfl, rfl, rfl, rfl, rfl, rfl⟩

/-- C5: the Pending-state invariant (`status = Pending` implies the
enrichment-sourced fields and the error are empty and the confidence is
zero) is established by item construction and by `reset_enrichment`,
trivially preserved by the three marking operations (which leave Pending),
and preserved by `get_pending_items`'s row-to-item conversion whenever the
fetched row itself satisfies the store-side invariant (its `wiki_url` and
`wiki_summary` columns are NULL, as every pending row written by this
system has). -/
theorem c5_pending_invariant_preserved :
    (∀ id title storyTitle episodeTitle serialTitle contentType sectionName
       groupName doctor companions writer director producer storyNumber
       series format duration broadcastDate releaseDate coverDate now,
      pendingInvariant (newLibraryItem id title storyTitle episodeTitle
        serialTitle contentType sectionName groupName doctor companions
        writer director producer storyNumber series format duration
        broadcastDate releaseDate coverDate now)) ∧
    (∀ item now, pendingInvariant (resetEnrichment item now)) ∧
    (∀ item confidence url summary term now,
      pendingInvariant (markEnriched item confidence url summary term now)) ∧
    (∀ item error searchTerm now,
      pendingInvariant (markEnrichmentFailed item error searchTerm now)) ∧
    (∀ item reason searchTerm now,
      pendingInvariant (markEnrichmentSkipped item reason searchTerm now)) ∧
    (∀ row now, row.wikiUrl = none → row.wikiSummary = none →
      pendingInvariant (rowToLibraryItem row now)) := by
  refine ⟨?_, ?_, ?_, ?_, ?_, ?_⟩
  · intro _ _ _ _ _ _ _ _ _ _ _ _ _ _ _ _ _ _ _ _ _ _
    exact ⟨rfl, rfl, rfl, rfl, rfl, rfl⟩
  · intro _ _ _
    exact ⟨rfl, rfl, rfl, rfl, rfl, rfl⟩
  · intro _ _ _ _ _ _ h
    exact absurd h (by simp [markEnriched])
  · intro _ _ _ _ h
    exact absurd h (by simp [markEnrichmentFailed])
  · intro _ _ _ _ h
    exact absurd h (by simp [markEnrichmentSkipped])
  · intro row now hu hs _
    exact ⟨hu, hs, rfl, rfl, rfl, rfl⟩

/-- Closed instance of `c5_pending_invariant_preserved`: the row-conversion
branch evaluated on a concrete NULL-valued pending row. -/
theorem c5_pending_invariant_preserved_witness :
    (rowToLibraryItem ⟨7, some "Rose", none, none, none, none, none, none, none⟩ 3).wikiUrl = none ∧
    (rowToLibraryItem ⟨7, some "Rose", none, none, none, none, none, none, none⟩ 3).wikiSummary = none ∧
    (rowToLibraryItem ⟨7, some "Rose", none, none, none, none, none, none, none⟩ 3).wikiImageUrl = none ∧
    (rowToLibraryItem ⟨7, some "Rose", none, none, none, none, none, none, none⟩ 3).wikiSearchTerm = none ∧
    (rowToLibraryItem ⟨7, some "Rose", none, none, none, none, none, none, none⟩ 3).enrichmentError = none ∧
    (rowToLibraryItem ⟨7, some "Rose", none, none, none, none, none, none, none⟩ 3).enrichmentConfidence = 0 :=
  c5_pending_invariant_preserved.2.2.2.2.2
    ⟨7, some "Rose", none, none, none, none, none, none, none⟩ 3 rfl rfl rfl

/-- C9 counterexample: resetting a single id that is not in the store
silently returns `(unchanged store, 0)` — no "not found" condition is
surfaced (the function has no error path at all). -/
theorem c9_missing_id_counterexample :
    resetSingleItemEnrichment
      [⟨1, "Rose", .enriched, 9, none, some "u", some "s", none, some "q", 0⟩]
      2 .pending 5 =
    ([⟨1, "Rose", .enriched, 9, none, some "u", some "s", none, some "q", 0⟩], 0) := by
  rfl

/-- C9 (amended): the bulk reset resets every row to
Pending/0.0/NULL and returns the total row count; the single-id reset
touches exactly the rows with the given id and returns how many matched —
in particular, when the id is absent it returns the store unchanged with
count 0 instead of surfacing a "not found" condition. -/
theorem c9_reset_operations (db : List DbRow) (itemId now : Nat) :
    (resetEnrichmentStatus db .pending now).2 = db.length ∧
    (∀ r ∈ (resetEnrichmentStatus db .pending now).1,
      r.enrichmentStatus = .pending ∧ r.enrichmentConfidence = 0 ∧
      r.enrichmentError = none ∧ r.wikiUrl = none ∧ r.wikiSummary = none ∧
      r.wikiImageUrl = none ∧ r.wikiSearchTerm = none) ∧
    (∀ r ∈ db, r.id ≠ itemId →
      r ∈ (resetSingleItemEnrichment db itemId .pending now).1) ∧
    (∀ r ∈ db, r.id = itemId →
      resetRowFields .pending now r ∈
        (resetSingleItemEnrichment db itemId .pending now).1) ∧
    ((∀ r ∈ db, r.id ≠ itemId) →
      resetSingleItemEnrichment db itemId .pending now = (db, 0)) := by
  refine ⟨rfl, ?_, ?_, ?_, ?_⟩
  · intro r hr
    obtain ⟨x, _, rfl⟩ := List.mem_map.1 hr
    exact ⟨rfl, rfl, rfl, rfl, rfl, rfl, rfl⟩
  · intro r hr h
    have hfix : (fun r : DbRow =>
        if r.id = itemId then resetRowFields .pending now r else r) r = r :=
      if_neg h
    exact hfix ▸ List.mem_map_of_mem _ hr
  · intro r hr h
    have hfix : (fun r : DbRow =>
        if r.id = itemId then resetRowFields .pending now r else r) r =
        resetRowFields .pending now r := if_pos h
    exact hfix ▸ List.mem_map_of_mem _ hr
  · intro h
    unfold resetSingleItemEnrichment
    induction db with
    | nil => rfl
    | cons a l ih =>
      have ha := h a (by simp)
      have hrest : ∀ r ∈ l, r.id ≠ itemId := fun r hr => h r (by simp [hr])
      have hl := ih hrest
      simp only [Prod.mk.injEq] at hl
      simp [List.filter_cons, ha, hl.1, hl.2, if_neg ha]

/-- Closed instance of `c9_reset_operations`: the single-id branches
evaluated on a concrete two-row store. -/
theorem c9_reset_operations_witness :
    (⟨2, "B", .enriched, 1, none, some "u", none, none, none, 0⟩ : DbRow) ∈
      (resetSingleItemEnrichment
        [⟨1, "A", .enriched, 1, none, some "u", none, none, none, 0⟩,
         ⟨2, "B", .enriched, 1, none, some "u", none, none, none, 0⟩]
        1 .pending 4).1 ∧
    resetSingleItemEnrichment
      [⟨1, "A", .enriched, 1, none, some "u", none, none, none, 0⟩] 9 .pending 4 =
    ([⟨1, "A", .enriched, 1, none, some "u", none, none, none, 0⟩], 0) := by
  constructor
  · exact (c9_reset_operations
      [⟨1, "A", .enriched, 1, none, some "u", none, none, none, 0⟩,
       ⟨2, "B", .enriched, 1, none, some "u", none, none, none, 0⟩] 1 4).2.2.1
      _ (by simp) (by decide)
  · exact (c9_reset_operations
      [⟨1, "A", .enriched, 1, none, some "u", none, none, none, 0⟩] 9 4).2.2.2.2
      (by intro r hr; simp at hr; subst hr; decide)

/-- C7 counterexample: for a page that does not exist the wiki serves an
HTTP 404, and `_get_page_content` raises the typed exception instead of
returning null — there is no input on which it returns null. -/
theorem c7_missing_page_counterexample :
    getPageContent "https://tardis.fandom.com/wiki/" "No Such Page"
      (.httpError (some 404)) =
      .error ⟨"TARDIS Wiki", "get_page_content",
              "Failed to get page content: No Such Page", some 404⟩ ∧
    getPageContent "https://tardis.fandom.com/wiki/" "No Such Page"
      (.httpError (some 404)) ≠ .ok none := by
  exact ⟨rfl, by simp [getPageContent]⟩

/-- C7 (amended): the page fetcher never returns null; every HTTP failure —
including the 404 served for a nonexistent page — surfaces as the typed
fetch-failed condition carrying the page title and the optional HTTP
status, and every successfully retrieved body (error pages included) yields
a content structure for the requested title. -/
theorem c7_fetch_failure_typing (baseUrl pageTitle : String)
    (resp : HttpResponse) :
    getPageContent baseUrl pageTitle resp ≠ .ok none ∧
    (∀ status, resp = .httpError status →
      getPageContent baseUrl pageTitle resp =
        .error ⟨"TARDIS Wiki", "get_page_content",
                "Failed to get page content: " ++ pageTitle, status⟩) ∧
    (∀ html, resp = .success html →
      ∃ page, getPageContent baseUrl pageTitle resp = .ok (some page) ∧
        page.title = pageTitle) := by
  cases resp with
  | httpError status =>
    refine ⟨by simp [getPageContent], fun s hs => ?_, fun html h => by simp at h⟩
    cases hs
    rfl
  | success html =>
    refine ⟨by simp [getPageContent], fun s hs => by simp at hs,
      fun h hh => ?_⟩
    cases hh
    exact ⟨_, rfl, rfl⟩

/-- Closed instance of `c7_fetch_failure_typing` at a 404 and at a parsed
body. -/
theorem c7_fetch_failure_typing_witness :
    getPageContent "b/" "P Q" (.httpError (some 500)) =
      .error ⟨"TARDIS Wiki", "get_page_content",
              "Failed to get page content: P Q", some 500⟩ ∧
    ∃ page, getPageContent "b/" "T" (.success ⟨[], none, [], []⟩) =
      .ok (some page) ∧ page.title = "T" :=
  ⟨(c7_fetch_failure_typing "b/" "P Q" (.httpError (some 500))).2.1 _ rfl,
   (c7_fetch_failure_typing "b/" "T" (.success ⟨[], none, [], []⟩)).2.2 _ rfl⟩

/-- The claim's summary rule, following the spec's words: the first
paragraph whose stripped text has AT LEAST 50 characters (and does not
begin with template markup or the boilerplate) supplies the summary. -/
def claimSummaryQualifiesAtLeast50 (p : String) : Bool :=
  let t := pyStrip p.toList
  !(t.isEmpty) && decide (50 ≤ t.length) &&
  !(pyStartsWith (String.mk t) "\x7b\x7b") &&
  !(pyStartsWith (String.mk t) "Fast Times")

/-- The summary according to the claim's at-least-50 rule. -/
def claimSummaryAtLeast50 (paragraphs : List String) : String :=
  match paragraphs.find? claimSummaryQualifiesAtLeast50 with
  | some p => cleanText (String.mk (pyStrip p.toList))
  | none => ""

/-- The amended summary rule: same as the claim but requiring STRICTLY more
than 50 characters, matching the source's `len(text) > 50`. -/
def claimSummaryMoreThan50 (paragraphs : List String) : String :=
  match paragraphs.find? (fun p => summaryQualifies (pyStrip p.toList)) with
  | some p => cleanText (String.mk (pyStrip p.toList))
  | none => ""

/-- C8 counterexample: a page whose first (and only) paragraph has exactly
50 characters.  The claim's at-least-50 rule accepts it as the summary, but
the code's strict `len(text) > 50` rejects it and the summary stays
empty. -/
theorem c8_exactly_50_counterexample :
    extractSummary [String.mk (List.replicate 50 'a')] = "" ∧
    claimSummaryAtLeast50 [String.mk (List.replicate 50 'a')] =
      String.mk (List.replicate 50 'a') ∧
    extractSummary [String.mk (List.replicate 50 'a')] ≠
      claimSummaryAtLeast50 [String.mk (List.replicate 50 'a')] := by
  refine ⟨by decide, by decide, by decide⟩

/-- C8 (amended): the extracted summary is the cleaned text of the first
paragraph whose stripped text has strictly more than 50 characters (so at
least 51) and does not begin with template markup or the boilerplate
prefix; a qualifying paragraph of exactly 50 characters is rejected. -/
theorem c8_summary_is_first_long_paragraph (paragraphs : List String) :
    extractSummary paragraphs = claimSummaryMoreThan50 paragraphs := by
  induction paragraphs with
  | nil => rfl
  | cons p rest ih =>
    by_cases h : summaryQualifies (pyStrip p.toList) = true
    · rw [extractSummary, if_pos h]
      unfold claimSummaryMoreThan50
      rw [List.find?_cons_of_pos rest
        (show (fun q => summaryQualifies (pyStrip q.toList)) p = true from h)]
    · rw [extractSummary, if_neg h, ih]
      unfold claimSummaryMoreThan50
      rw [List.find?_cons_of_neg rest
        (show ¬(fun q => summaryQualifies (pyStrip q.toList)) p = true from h)]

/-- The claim's scoring formula, following the spec's words: title
containment (either direction) scores `0.6`, else a shared long word scores
`0.4`, plus the four independent bonuses, capped at `1.0` — with no
condition that the titles be non-empty. -/
def claimConfidenceScore (item : LibraryItem) (page : PageContent) : ℤ :=
  scoreMin (titleScore (lowerStr item.title) (lowerStr page.title) + bonusScore page) 10

/-- An item title is always a substring of any page title once it is empty,
so `titleScore` awards `0.6` there; the source's `if item_title and
page_title:` guard awards `0` instead. -/
theorem c3_empty_title_counterexample :
    calculateConfidenceScore baseItem
      ⟨"x", "", "", [], [], "", []⟩ = 0 ∧
    claimConfidenceScore baseItem
      ⟨"x", "", "", [], [], "", []⟩ = 6 ∧
    calculateConfidenceScore baseItem ⟨"x", "", "", [], [], "", []⟩ ≠
      claimConfidenceScore baseItem ⟨"x", "", "", [], [], "", []⟩ := by
  refine ⟨by decide, by decide, by decide⟩

theorem titleScore_nonneg (a b : String) : 0 ≤ titleScore a b := by
  unfold titleScore
  split
  · norm_num
  · split <;> norm_num

theorem bonusScore_nonneg (page : PageContent) : 0 ≤ bonusScore page := by
  unfold bonusScore
  refine add_nonneg (add_nonneg (add_nonneg ?_ ?_) ?_) ?_ <;>
    (split <;> norm_num)

theorem lowerStr_ne_empty {s : String} (h : s ≠ "") : lowerStr s ≠ "" := by
  intro hc
  apply h
  have h2 : (s.toList.map Char.toLower) = [] := congrArg String.data hc
  have h3 : s.toList = [] := List.map_eq_nil_iff.1 h2
  obtain ⟨l⟩ := s
  cases l with
  | nil => rfl
  | cons c cs => simp [String.toList] at h3

/-- C3 (amended): the confidence score is always in `[0.0, 1.0]` (in
tenths: `[0, 10]`), and whenever the record title and the page title are
both non-empty it equals the claim's formula (containment `0.6` /
long-word `0.4`, the four bonuses, capped at `1.0`, order-independent);
for an empty title the code's `if item_title and page_title:` guard
suppresses the title signal. -/
theorem c3_confidence_score_formula (item : LibraryItem) (page : PageContent) :
    0 ≤ calculateConfidenceScore item page ∧
    calculateConfidenceScore item page ≤ 10 ∧
    (item.title ≠ "" → page.title ≠ "" →
      calculateConfidenceScore item page = claimConfidenceScore item page) := by
  refine ⟨?_, ?_, ?_⟩
  · rw [calculateConfidenceScore, scoreMin_eq_min]
    refine le_min (add_nonneg ?_ (bonusScore_nonneg page)) (by norm_num)
    split
    · exact titleScore_nonneg _ _
    · exact le_refl 0
  · rw [calculateConfidenceScore, scoreMin_eq_min]
    exact min_le_right _ _
  · intro h1 h2
    rw [calculateConfidenceScore, claimConfidenceScore,
      if_pos ⟨lowerStr_ne_empty h1, lowerStr_ne_empty h2⟩]

/-- Closed instance of `c3_confidence_score_formula` on a concrete item and
page with non-empty titles. -/
theorem c3_confidence_score_formula_witness :
    0 ≤ calculateConfidenceScore { baseItem with title := "Rose" }
      ⟨"Rose (TV story)", "https://tardis.fandom.com/wiki/Rose", "",
       [], ["Cat"], "A Doctor Who episode.", []⟩ ∧
    calculateConfidenceScore { baseItem with title := "Rose" }
      ⟨"Rose (TV story)", "https://tardis.fandom.com/wiki/Rose", "",
       [], ["Cat"], "A Doctor Who episode.", []⟩ ≤ 10 ∧
    calculateConfidenceScore { baseItem with title := "Rose" }
      ⟨"Rose (TV story)", "https://tardis.fandom.com/wiki/Rose", "",
       [], ["Cat"], "A Doctor Who episode.", []⟩ =
    claimConfidenceScore { baseItem with title := "Rose" }
      ⟨"Rose (TV story)", "https://tardis.fandom.com/wiki/Rose", "",
       [], ["Cat"], "A Doctor Who episode.", []⟩ :=
  ⟨(c3_confidence_score_formula _ _).1, (c3_confidence_score_formula _ _).2.1,
   (c3_confidence_score_formula _ _).2.2 (by decide) (by decide)⟩

theorem mem_dabFold (title : String) : ∀ (l qs : List String) (q : String),
    q ∈ l.foldl (fun qs dab =>
      let searchQuery := title ++ " (" ++ dab ++ ")"
      if searchQuery ∈ qs then qs else qs ++ [searchQuery]) qs →
    q ∈ qs ∨ ∃ d ∈ l, q = title ++ " (" ++ d ++ ")" := by
  intro l
  induction l with
  | nil => exact fun qs q h => Or.inl h
  | cons d rest ih =>
    intro qs q h
    simp only [List.foldl_cons] at h
    rcases ih _ q h with h1 | ⟨d1, hd1, rfl⟩
    · by_cases hc : (title ++ " (" ++ d ++ ")") ∈ qs
      · rw [if_pos hc] at h1
        exact Or.inl h1
      · rw [if_neg hc] at h1
        rcases List.mem_append.1 h1 with h2 | h2
        · exact Or.inl h2
        · exact Or.inr ⟨d, by simp, List.mem_singleton.1 h2⟩
    · exact Or.inr ⟨d1, by simp [hd1], rfl⟩

theorem dabFold_length (title : String) : ∀ (l qs : List String),
    (l.foldl (fun qs dab =>
      let searchQuery := title ++ " (" ++ dab ++ ")"
      if searchQuery ∈ qs then qs else qs ++ [searchQuery]) qs).length ≤
      qs.length + l.length := by
  intro l
  induction l with
  | nil => simp
  | cons d rest ih =>
    intro qs
    simp only [List.foldl_cons]
    refine le_trans (ih _) ?_
    dsimp only
    by_cases hc : (title ++ " (" ++ d ++ ")") ∈ qs
    · rw [if_pos hc]
      simp only [List.length_cons]
      omega
    · rw [if_neg hc]
      simp only [List.length_append, List.length_cons, List.length_nil]
      omega

theorem mem_dabQueries {title : String} {qs : List String} {q : String}
    (h : q ∈ dabQueries title qs) :
    q ∈ qs ∨ ∃ d ∈ commonDisambiguations, q = title ++ " (" ++ d ++ ")" :=
  mem_dabFold title commonDisambiguations qs q h

theorem dabQueries_length (title : String) (qs : List String) :
    (dabQueries title qs).length ≤ qs.length + 7 :=
  dabFold_length title commonDisambiguations qs

theorem mem_queriesForTitle {item : LibraryItem} {qs : List String}
    {title q : String} (h : q ∈ queriesForTitle item qs title) :
    q ∈ qs ∨ q = title ∨
    (∃ ct, item.contentType = some ct ∧
      q = title ++ " (" ++ getWikiSuffix ct ++ ")") ∨
    ∃ d ∈ commonDisambiguations, q = title ++ " (" ++ d ++ ")" := by
  unfold queriesForTitle at h
  rcases List.mem_append.1 h with h1 | h1
  · cases hct : item.contentType with
    | none =>
      rw [hct] at h1
      rcases mem_dabQueries h1 with h2 | h2
      · exact Or.inl h2
      · exact Or.inr (Or.inr (Or.inr h2))
    | some ct =>
      rw [hct] at h1
      rcases mem_dabQueries h1 with h2 | h2
      · rcases List.mem_append.1 h2 with h3 | h3
        · exact Or.inl h3
        · exact Or.inr (Or.inr (Or.inl ⟨ct, rfl, by simpa using h3⟩))
      · exact Or.inr (Or.inr (Or.inr h2))
  · exact Or.inr (Or.inl (by simpa using h1))

theorem mem_titlesFold {item : LibraryItem} : ∀ (ts qs : List String)
    (q : String), q ∈ ts.foldl (queriesForTitle item) qs →
    q ∈ qs ∨ ∃ t ∈ ts, q = t ∨
      (∃ ct, item.contentType = some ct ∧
        q = t ++ " (" ++ getWikiSuffix ct ++ ")") ∨
      ∃ d ∈ commonDisambiguations, q = t ++ " (" ++ d ++ ")" := by
  intro ts
  induction ts with
  | nil => exact fun qs q h => Or.inl h
  | cons t rest ih =>
    intro qs q h
    simp only [List.foldl_cons] at h
    rcases ih _ q h with h1 | ⟨t1, ht1, h2⟩
    · rcases mem_queriesForTitle h1 with h2 | h2
      · exact Or.inl h2
      · exact Or.inr ⟨t, by simp, h2⟩
    · exact Or.inr ⟨t1, by simp [ht1], h2⟩

theorem searchTitles_ne_empty (item : LibraryItem) :
    ∀ t ∈ getSearchTitles item, t ≠ "" := by
  intro t ht
  unfold getSearchTitles at ht
  rcases List.mem_append.1 ht with h | h
  · rcases List.mem_append.1 h with h1 | h1
    · split at h1
      · split at h1
        · rename_i hcond
          rw [List.mem_singleton.1 h1]
          exact hcond.1
        · cases h1
      · cases h1
    · split at h1
      · split at h1
        · rename_i hcond
          rw [List.mem_singleton.1 h1]
          exact hcond.1
        · cases h1
      · cases h1
  · split at h
    · rename_i hcond
      rw [List.mem_singleton.1 h]
      exact hcond
    · cases h

theorem paren_query_ne_empty (a b : String) : a ++ " (" ++ b ++ ")" ≠ "" := by
  intro h
  have hlen := congrArg String.length h
  rw [String.length_append, String.length_append, String.length_append] at hlen
  have h1 : (" (" : String).length = 2 := rfl
  have h2 : (")" : String).length = 1 := rfl
  have h3 : ("" : String).length = 0 := rfl
  omega

theorem broad_query_ne_empty (t : String) :
    "\"" ++ t ++ "\" Doctor Who" ≠ "" := by
  intro h
  have hlen := congrArg String.length h
  rw [String.length_append, String.length_append] at hlen
  have h1 : ("\"" : String).length = 1 := rfl
  have h2 : ("\" Doctor Who" : String).length = 12 := rfl
  have h3 : ("" : String).length = 0 := rfl
  omega

/-- A record whose story title already carries the disambiguation suffix of
its own content type. -/
def roseTvItem : LibraryItem :=
  { baseItem with
    title := "Rose"
    storyTitle := some "Rose (TV story)"
    contentType := some ContentType.tv }

/-- C4 counterexample: with primary title `"Rose"`, story title
`"Rose (TV story)"` and a TV content type, the content-type suffix query of
the second title duplicates the plain form of the first title inside the
first 12 queries (`_generate_search_queries` appends the suffix query with
no duplicate check), so the result is not duplicate-free. -/
theorem c4_duplicate_queries_counterexample :
    ¬ (generateSearchQueries roseTvItem).Nodup ∧
    (generateSearchQueries roseTvItem).count "Rose (TV story)" = 2 := by
  refine ⟨by decide, by decide⟩

/-- C4 (amended): `generate_queries` returns at most 12 queries, all
non-empty; and for a record whose optional titles are all empty but whose
primary title is non-empty the result contains the bare primary title and
the broad quoted query.  Exact duplicates, however, can occur (dropped from
the claim): the content-type suffix query is appended without a duplicate
check, so a title that already carries its own disambiguation suffix is
emitted twice. -/
theorem c4_query_generation (item : LibraryItem) :
    (generateSearchQueries item).length ≤ 12 ∧
    (∀ q ∈ generateSearchQueries item, q ≠ "") ∧
    (truthyOpt item.storyTitle = false → truthyOpt item.episodeTitle = false →
     truthyOpt item.serialTitle = false → item.title ≠ "" →
      item.title ∈ generateSearchQueries item ∧
      ("\"" ++ item.title ++ "\" Doctor Who") ∈ generateSearchQueries item) := by
  refine ⟨?_, ?_, ?_⟩
  · rw [generateSearchQueries]
    exact List.length_take_le _ _
  · intro q hq
    rw [generateSearchQueries] at hq
    cases hts : getSearchTitles item with
    | nil =>
      rw [hts] at hq
      simp at hq
    | cons t rest =>
      rw [hts] at hq
      have hq2 := List.mem_of_mem_take hq
      rcases List.mem_append.1 hq2 with h | h
      · rcases mem_titlesFold _ _ _ h with h1 | ⟨t1, ht1, h2 | h2 | h2⟩
        · simp at h1
        · rw [h2]
          exact searchTitles_ne_empty item t1 (by rw [hts]; exact ht1)
        · obtain ⟨ct, _, rfl⟩ := h2
          exact paren_query_ne_empty _ _
        · obtain ⟨d, _, rfl⟩ := h2
          exact paren_query_ne_empty _ _
      · rw [List.mem_singleton.1 h]
        exact broad_query_ne_empty t
  · intro hst _ hsl htit
    have hts : getSearchTitles item = [item.title] := by
      have h1 : (match item.storyTitle with
          | some st => if st ≠ "" ∧ st ≠ item.title then [st] else []
          | none => []) = ([] : List String) := by
        cases hso : item.storyTitle with
        | none => rfl
        | some st =>
          rw [hso] at hst
          simp [truthyOpt] at hst
          simp [hst]
      have h2 : (match item.serialTitle with
          | some sl =>
            if sl ≠ "" ∧ sl ≠ item.title ∧ item.storyTitle ≠ some sl then [sl]
            else []
          | none => []) = ([] : List String) := by
        cases hse : item.serialTitle with
        | none => rfl
        | some sl =>
          rw [hse] at hsl
          simp [truthyOpt] at hsl
          simp [hsl]
      rw [getSearchTitles, h1, h2, if_pos htit]
      rfl
    have hlen : (queriesForTitle item [] item.title ++
        ["\"" ++ item.title ++ "\" Doctor Who"]).length ≤ 12 := by
      rw [List.length_append]
      have hq : (queriesForTitle item [] item.title).length ≤ 10 := by
        unfold queriesForTitle
        cases item.contentType with
        | none =>
          rw [List.length_append]
          have := dabQueries_length item.title []
          simp at this ⊢
          omega
        | some ct =>
          rw [List.length_append]
          have := dabQueries_length item.title
            [item.title ++ " (" ++ getWikiSuffix ct ++ ")"]
          simp at this ⊢
          omega
      simp
      omega
    have heq : generateSearchQueries item =
        queriesForTitle item [] item.title ++
          ["\"" ++ item.title ++ "\" Doctor Who"] := by
      rw [generateSearchQueries, hts]
      simp only [List.foldl_cons, List.foldl_nil]
      exact List.take_of_length_le hlen
    rw [heq]
    constructor
    · apply List.mem_append_left
      unfold queriesForTitle
      exact List.mem_append_right _ (by simp)
    · exact List.mem_append_right _ (by simp)

/-- Closed instance of `c4_query_generation`: the all-empty-optional-titles
branch evaluated on a concrete record. -/
theorem c4_query_generation_witness :
    ("Rose" : String) ∈ generateSearchQueries { baseItem with title := "Rose" } ∧
    ("\"Rose\" Doctor Who" : String) ∈
      generateSearchQueries { baseItem with title := "Rose" } :=
  (c4_query_generation { baseItem with title := "Rose" }).2.2
    rfl rfl rfl (by decide)

/-- An environment whose search endpoint always fails. -/
def failingSearchEnv : WikiEnv :=
  { search := fun _ => .error ()
    fetch := fun _ => .ok none }

/-- C2: one `enrich_item` attempt on a Pending record always ends in
Enriched, Skipped or Failed — never still Pending; a search failure on one
query just moves the query loop on to the next query (and a completed
search, whatever the per-query failures, can only end Enriched or Skipped);
an exception escaping the search marks the record Failed with the
exception's message and the top search title as the recorded search
term. -/
theorem c2_enrich_item_outcome (item : LibraryItem)
    (outcome : Except String (Option WikiSearchResult)) (now : Nat)
    (env : WikiEnv) (st : SearchState) (query : String) (rest : List String)
    (e : String) :
    (item.enrichmentStatus = .pending →
      ((enrichItem item outcome now).enrichmentStatus = .enriched ∨
       (enrichItem item outcome now).enrichmentStatus = .skipped ∨
       (enrichItem item outcome now).enrichmentStatus = .failed)) ∧
    (env.search query = .error () →
      searchLoop item env st (query :: rest) = searchLoop item env st rest) ∧
    (item.enrichmentStatus = .pending → ∀ threshold,
      (enrichItemRun item env threshold now).enrichmentStatus = .enriched ∨
      (enrichItemRun item env threshold now).enrichmentStatus = .skipped) ∧
    (item.enrichmentStatus = .pending →
      (enrichItem item (.error e) now).enrichmentStatus = .failed ∧
      (enrichItem item (.error e) now).enrichmentError = some e ∧
      (getSearchTitles item ≠ [] →
        (enrichItem item (.error e) now).wikiSearchTerm =
          (getSearchTitles item).head?)) := by
  refine ⟨?_, ?_, ?_, ?_⟩
  · intro h
    have hcan : canBeEnriched item = true := by simp [canBeEnriched, h]
    rcases outcome with e1 | o
    · rw [enrichItem, if_pos hcan]
      exact Or.inr (Or.inr rfl)
    · rcases o with _ | r
      · rw [enrichItem, if_pos hcan]
        exact Or.inr (Or.inl rfl)
      · rcases r with ⟨rt, ru, rs, rc, rterm, rimg⟩
        rcases rimg with _ | u
        · rw [enrichItem, if_pos hcan]
          exact Or.inl rfl
        · rw [enrichItem, if_pos hcan]
          dsimp only
          split
          · exact Or.inl rfl
          · exact Or.inl rfl
  · intro hsearch
    rw [searchLoop]
    simp [hsearch]
  · intro h threshold
    rw [enrichItemRun]
    rcases hs : searchForItemInternal item env threshold with _ | r
    · right
      rw [enrichItem, if_pos (by simp [canBeEnriched, h])]
      rfl
    · left
      rw [enrichItem, if_pos (by simp [canBeEnriched, h])]
      rcases r with ⟨rt, ru, rs, rc, rterm, rimg⟩
      rcases rimg with _ | u
      · rfl
      · dsimp only
        split
        · rfl
        · rfl
  · intro h
    refine ⟨?_, ?_, ?_⟩
    · rw [enrichItem, if_pos (by simp [canBeEnriched, h])]
      rfl
    · rw [enrichItem, if_pos (by simp [canBeEnriched, h])]
      rfl
    · intro hne
      rw [enrichItem, if_pos (by simp [canBeEnriched, h])]
      cases hgs : getSearchTitles item with
      | nil => exact absurd hgs hne
      | cons a l =>
        have ha : a ≠ "" := searchTitles_ne_empty item a (by rw [hgs]; simp)
        simp [markEnrichmentFailed, truthyOpt, ha]

/-- Closed instance of `c2_enrich_item_outcome` on a concrete Pending
record: a completed empty search ends Skipped, a failing first query is
skipped over by the loop, and an escaping exception ends Failed carrying
its message. -/
theorem c2_enrich_item_outcome_witness :
    ((enrichItem baseItem (.ok none) 1).enrichmentStatus = .enriched ∨
     (enrichItem baseItem (.ok none) 1).enrichmentStatus = .skipped ∨
     (enrichItem baseItem (.ok none) 1).enrichmentStatus = .failed) ∧
    searchLoop baseItem failingSearchEnv ⟨none, 0⟩ ["q1", "q2"] =
      searchLoop baseItem failingSearchEnv ⟨none, 0⟩ ["q2"] ∧
    (enrichItem baseItem (.error "socket timeout") 1).enrichmentStatus = .failed ∧
    (enrichItem baseItem (.error "socket timeout") 1).enrichmentError =
      some "socket timeout" :=
  ⟨(c2_enrich_item_outcome baseItem (.ok none) 1 failingSearchEnv ⟨none, 0⟩
      "q1" ["q2"] "socket timeout").1 rfl,
   (c2_enrich_item_outcome baseItem (.ok none) 1 failingSearchEnv ⟨none, 0⟩
      "q1" ["q2"] "socket timeout").2.1 rfl,
   ((c2_enrich_item_outcome baseItem (.ok none) 1 failingSearchEnv ⟨none, 0⟩
      "q1" ["q2"] "socket timeout").2.2.2 rfl).1,
   ((c2_enrich_item_outcome baseItem (.ok none) 1 failingSearchEnv ⟨none, 0⟩
      "q1" ["q2"] "socket timeout").2.2.2 rfl).2.1⟩

/-- The record of the C1 failing scenario (primary title `"a"`, no optional
titles). -/
def itemA : LibraryItem := { baseItem with title := "a" }

/-- First candidate page of the failing scenario: title match plus a
summary; score `0.7`, one image. -/
def pageA : PageContent :=
  { title := "A", url := "urlA", content := "", infobox := [],
    categories := [], summary := "s", images := ["i.jpg"] }

/-- Second candidate page of the failing scenario: title match plus a
category; score `0.8`, NO images. -/
def pageB : PageContent :=
  { title := "ab", url := "u", content := "", infobox := [],
    categories := ["c"], summary := "", images := [] }

/-- The C1 failing environment: every query finds candidates `A` then `ab`,
fetching them yields `pageA` / `pageB`. -/
def envAB : WikiEnv :=
  { search := fun _ => .ok [⟨"A", "urlA"⟩, ⟨"ab", "urlB"⟩]
    fetch := fun t =>
      if t = "A" then .ok (some pageA)
      else if t = "ab" then .ok (some pageB)
      else .ok none }

/-- C1 (code bug): evaluating the enrichment loop on the failing input.
Candidate `pageB` scores `0.8`, strictly above the best-so-far `0.7`, so
the source assigns `best_score = 0.8` — and then crashes with an
`IndexError` building the new best result, because
`page_content.get("images", [None])[0]` is `[][0]` for a page with no
images (the `"images"` key is always present, so the `[None]` default never
applies).  The exception is swallowed by the per-query handler, leaving
`best_result` stale at `pageA`: the record ends Enriched with confidence
`0.7` while `best_score` is `0.8`, contradicting the claim that the best
result tracks every strictly-better candidate and that the recorded
confidence equals `best_score`. -/
theorem c1_empty_images_divergence :
    (searchLoop itemA envAB ⟨none, 0⟩ (generateSearchQueries itemA)).bestScore = 8 ∧
    (enrichItemRun itemA envAB 7 1).enrichmentStatus = .enriched ∧
    (enrichItemRun itemA envAB 7 1).enrichmentConfidence = 7 ∧
    (enrichItemRun itemA envAB 7 1).enrichmentConfidence ≠
      (searchLoop itemA envAB ⟨none, 0⟩ (generateSearchQueries itemA)).bestScore := by
  refine ⟨by decide, by decide, by decide, by decide⟩

/-! ## Idempotence analysis of the text normalizer -/

/-- Every whitespace character of `l` is a plain space. -/
def spacesAreSpace (l : List Char) : Prop :=
  ∀ c ∈ l, isPySpace c = true → c = ' '

/-- No two adjacent characters of `l` are both whitespace. -/
def noAdjSpaces : List Char → Prop
  | c1 :: c2 :: rest =>
    ¬(isPySpace c1 = true ∧ isPySpace c2 = true) ∧ noAdjSpaces (c2 :: rest)
  | _ => True

theorem noAdjSpaces_tail {x : Char} {m : List Char}
    (h : noAdjSpaces (x :: m)) : noAdjSpaces m := by
  cases m with
  | nil => trivial
  | cons a t => exact h.2

theorem noAdjSpaces_cons {x : Char} {m : List Char} (hm : noAdjSpaces m)
    (hx : ∀ y, m.head? = some y →
      ¬(isPySpace x = true ∧ isPySpace y = true)) :
    noAdjSpaces (x :: m) := by
  cases m with
  | nil => trivial
  | cons a t => exact ⟨hx a rfl, hm⟩

theorem mem_collapseWs {c : Char} : ∀ {l : List Char}, c ∈ collapseWs l →
    c = ' ' ∨ (c ∈ l ∧ isPySpace c = false) := by
  intro l
  induction l with
  | nil => intro h; cases h
  | cons c1 rest ih =>
    intro h
    cases rest with
    | nil =>
      rw [collapseWs] at h
      by_cases hsp : isPySpace c1 = true
      · rw [if_pos hsp] at h
        exact Or.inl (List.mem_singleton.1 h)
      · rw [if_neg hsp] at h
        rw [List.mem_singleton.1 h]
        exact Or.inr ⟨by simp, by simpa using hsp⟩
    | cons c2 rest2 =>
      rw [collapseWs] at h
      by_cases h1 : isPySpace c1 = true
      · rw [if_pos h1] at h
        by_cases h2 : isPySpace c2 = true
        · rw [if_pos h2] at h
          rcases ih h with h3 | ⟨h3, h4⟩
          · exact Or.inl h3
          · exact Or.inr ⟨by simp [h3], h4⟩
        · rw [if_neg h2] at h
          rcases List.mem_cons.1 h with h3 | h3
          · exact Or.inl h3
          · rcases ih h3 with h4 | ⟨h4, h5⟩
            · exact Or.inl h4
            · exact Or.inr ⟨by simp [h4], h5⟩
      · rw [if_neg h1] at h
        rcases List.mem_cons.1 h with h3 | h3
        · rw [h3]
          exact Or.inr ⟨by simp, by simpa using h1⟩
        · rcases ih h3 with h4 | ⟨h4, h5⟩
          · exact Or.inl h4
          · exact Or.inr ⟨by simp [h4], h5⟩

theorem collapseWs_spaces (l : List Char) : spacesAreSpace (collapseWs l) := by
  intro c hc hsp
  rcases mem_collapseWs hc with h | ⟨_, h⟩
  · exact h
  · rw [hsp] at h
    cases h

theorem collapseWs_head : ∀ (rest : List Char) (c : Char),
    (collapseWs (c :: rest)).head? =
      some (if isPySpace c = true then ' ' else c) := by
  intro rest
  induction rest with
  | nil =>
    intro c
    rw [collapseWs]
    by_cases hsp : isPySpace c = true
    · rw [if_pos hsp, if_pos hsp]
      rfl
    · rw [if_neg hsp, if_neg hsp]
      rfl
  | cons c2 rest2 ih =>
    intro c
    rw [collapseWs]
    by_cases h1 : isPySpace c = true
    · rw [if_pos h1, if_pos h1]
      by_cases h2 : isPySpace c2 = true
      · rw [if_pos h2, ih c2, if_pos h2]
      · rw [if_neg h2]
        rfl
    · rw [if_neg h1, if_neg h1]
      rfl

theorem collapseWs_noAdj : ∀ (l : List Char), noAdjSpaces (collapseWs l) := by
  intro l
  induction l with
  | nil => trivial
  | cons c1 rest ih =>
    cases rest with
    | nil =>
      rw [collapseWs]
      by_cases hsp : isPySpace c1 = true
      · rw [if_pos hsp]; trivial
      · rw [if_neg hsp]; trivial
    | cons c2 rest2 =>
      rw [collapseWs]
      by_cases h1 : isPySpace c1 = true
      · rw [if_pos h1]
        by_cases h2 : isPySpace c2 = true
        · rw [if_pos h2]
          exact ih
        · rw [if_neg h2]
          refine noAdjSpaces_cons ih ?_
          intro y hy
          rw [collapseWs_head, if_neg h2] at hy
          cases hy
          intro hcontra
          exact h2 hcontra.2
      · rw [if_neg h1]
        refine noAdjSpaces_cons ih ?_
        intro y _ hcontra
        exact h1 hcontra.1

theorem collapseWs_eq_self : ∀ (l : List Char), spacesAreSpace l →
    noAdjSpaces l → collapseWs l = l := by
  intro l
  induction l with
  | nil => intro _ _; rfl
  | cons c1 rest ih =>
    intro hsp hadj
    cases rest with
    | nil =>
      rw [collapseWs]
      by_cases h1 : isPySpace c1 = true
      · rw [if_pos h1, hsp c1 (by simp) h1]
      · rw [if_neg h1]
    | cons c2 rest2 =>
      have ihr := ih (fun c hc => hsp c (by simp [hc])) (noAdjSpaces_tail hadj)
      rw [collapseWs]
      by_cases h1 : isPySpace c1 = true
      · have h2 : ¬ isPySpace c2 = true := fun h2 => hadj.1 ⟨h1, h2⟩
        rw [if_pos h1, if_neg h2, ihr, hsp c1 (by simp) h1]
      · rw [if_neg h1, ihr]

theorem mem_rstripSp {c : Char} : ∀ {l : List Char}, c ∈ rstripSp l → c ∈ l := by
  intro l
  induction l with
  | nil => intro h; cases h
  | cons c1 rest ih =>
    intro h
    rw [rstripSp] at h
    cases hr : rstripSp rest with
    | nil =>
      rw [hr] at h
      by_cases hsp : isPySpace c1 = true
      · rw [if_pos hsp] at h
        cases h
      · rw [if_neg hsp] at h
        rw [List.mem_singleton.1 h]
        simp
    | cons a t =>
      rw [hr] at h
      rcases List.mem_cons.1 h with h1 | h1
      · rw [h1]
        simp
      · exact List.mem_cons_of_mem _ (ih (hr ▸ h1))

theorem rstripSp_head : ∀ (l : List Char), rstripSp l = [] ∨
    (rstripSp l).head? = l.head? := by
  intro l
  cases l with
  | nil => exact Or.inl rfl
  | cons c rest =>
    rw [rstripSp]
    cases hr : rstripSp rest with
    | nil =>
      by_cases hsp : isPySpace c = true
      · rw [if_pos hsp]
        exact Or.inl rfl
      · rw [if_neg hsp]
        exact Or.inr rfl
    | cons a t => exact Or.inr rfl

theorem rstripSp_noAdj : ∀ {l : List Char}, noAdjSpaces l →
    noAdjSpaces (rstripSp l) := by
  intro l
  induction l with
  | nil => intro _; trivial
  | cons c rest ih =>
    intro h
    rw [rstripSp]
    cases hr : rstripSp rest with
    | nil =>
      by_cases hsp : isPySpace c = true
      · rw [if_pos hsp]; trivial
      · rw [if_neg hsp]; trivial
    | cons a t =>
      have hrest := ih (noAdjSpaces_tail h)
      rw [hr] at hrest
      refine noAdjSpaces_cons hrest ?_
      intro y hy
      cases hy
      rcases rstripSp_head rest with h2 | h2
      · rw [h2] at hr
        cases hr
      · rw [hr] at h2
        cases rest with
        | nil => cases h2
        | cons b t2 =>
          cases h2
          exact fun hc => h.1 hc

theorem rstripSp_idem : ∀ (l : List Char), rstripSp (rstripSp l) = rstripSp l := by
  intro l
  induction l with
  | nil => rfl
  | cons c rest ih =>
    rw [rstripSp]
    cases hr : rstripSp rest with
    | nil =>
      by_cases hsp : isPySpace c = true
      · rw [if_pos hsp]
        rfl
      · rw [if_neg hsp]
        rw [rstripSp]
        simp [rstripSp, hsp]
    | cons a t =>
      have ha : rstripSp (a :: t) = a :: t := by
        rw [← hr, ih]
      rw [rstripSp, ha]

theorem mem_dropWhileSp {c : Char} : ∀ {l : List Char},
    c ∈ l.dropWhile isPySpace → c ∈ l := by
  intro l
  induction l with
  | nil => intro h; cases h
  | cons c1 rest ih =>
    intro h
    rw [List.dropWhile_cons] at h
    by_cases hsp : isPySpace c1 = true
    · rw [if_pos hsp] at h
      exact List.mem_cons_of_mem _ (ih h)
    · rw [if_neg hsp] at h
      exact h

theorem dropWhileSp_noAdj : ∀ {l : List Char}, noAdjSpaces l →
    noAdjSpaces (l.dropWhile isPySpace) := by
  intro l
  induction l with
  | nil => intro _; trivial
  | cons c rest ih =>
    intro h
    rw [List.dropWhile_cons]
    by_cases hsp : isPySpace c = true
    · rw [if_pos hsp]
      exact ih (noAdjSpaces_tail h)
    · rw [if_neg hsp]
      exact h

theorem dropWhileSp_head : ∀ (l : List Char) (y : Char),
    (l.dropWhile isPySpace).head? = some y → isPySpace y = false := by
  intro l
  induction l with
  | nil => intro y h; cases h
  | cons c rest ih =>
    intro y h
    rw [List.dropWhile_cons] at h
    by_cases hsp : isPySpace c = true
    · rw [if_pos hsp] at h
      exact ih y h
    · rw [if_neg hsp] at h
      cases h
      simpa using hsp

theorem mem_pyStrip {c : Char} {l : List Char} (h : c ∈ pyStrip l) : c ∈ l :=
  mem_dropWhileSp (mem_rstripSp h)

theorem pyStrip_noAdj {l : List Char} (h : noAdjSpaces l) :
    noAdjSpaces (pyStrip l) :=
  rstripSp_noAdj (dropWhileSp_noAdj h)

theorem pyStrip_idem (l : List Char) : pyStrip (pyStrip l) = pyStrip l := by
  rw [pyStrip]
  cases hm : pyStrip l with
  | nil => rfl
  | cons y t =>
    have hy : isPySpace y = false := by
      rcases rstripSp_head (l.dropWhile isPySpace) with h2 | h2
      · rw [pyStrip, h2] at hm
        cases hm
      · rw [pyStrip] at hm
        rw [hm] at h2
        exact dropWhileSp_head l y h2.symm
    have hd : (y :: t).dropWhile isPySpace = y :: t := by
      rw [List.dropWhile_cons, if_neg (by simp [hy])]
    rw [hd, ← hm, pyStrip, rstripSp_idem]

theorem removeBracketsAux_eq_self : ∀ (fuel : Nat) (l : List Char),
    (∀ c ∈ l, c ≠ '[') → removeBracketsAux fuel l = l := by
  intro fuel
  induction fuel with
  | zero => intro l _; rfl
  | succ n ih =>
    intro l h
    cases l with
    | nil => rfl
    | cons c rest =>
      rw [removeBracketsAux, if_neg (h c (by simp)), ih rest
        (fun c hc => h c (by simp [hc]))]

theorem removeBrackets_eq_self {l : List Char} (h : ∀ c ∈ l, c ≠ '[') :
    removeBrackets l = l :=
  removeBracketsAux_eq_self l.length l h

theorem removeBracesAux_eq_self : ∀ (fuel : Nat) (l : List Char),
    (∀ c ∈ l, c ≠ '\x7b') → removeBracesAux fuel l = l := by
  intro fuel
  induction fuel with
  | zero => intro l _; rfl
  | succ n ih =>
    intro l h
    cases l with
    | nil => rfl
    | cons c1 rest =>
      cases rest with
      | nil => rfl
      | cons c2 rest2 =>
        rw [removeBracesAux,
          if_neg (fun hc => h c1 (by simp) hc.1),
          ih (c2 :: rest2) (fun c hc => h c (by simp [hc]))]

theorem removeBraces_eq_self {l : List Char} (h : ∀ c ∈ l, c ≠ '\x7b') :
    removeBraces l = l :=
  removeBracesAux_eq_self l.length l h

theorem toList_mk (l : List Char) : (String.mk l).toList = l := rfl

theorem mk_eq_empty {l : List Char} (h : String.mk l = "") : l = [] :=
  congrArg String.data h

/-- C6 counterexample: `_clean_text` is not idempotent.  On
`"a [x] b"` the whitespace collapse runs first, and removing the reference
marker `[x]` afterwards merges the two spaces around it into a double
space, which only a second pass collapses. -/
theorem c6_clean_text_not_idempotent :
    cleanText "a [x] b" = "a  b" ∧
    cleanText (cleanText "a [x] b") = "a b" ∧
    cleanText (cleanText "a [x] b") ≠ cleanText "a [x] b" := by
  refine ⟨by decide, by decide, by decide⟩

/-- C6 (amended): `normalize` is idempotent on every input containing no
reference-marker or template-markup characters — for any string without
`'['` and `'\x7b'`, `normalize(normalize(x)) = normalize(x)`.  (Full
idempotence fails: marker removal after whitespace collapse can merge the
spaces surrounding a removed marker.) -/
theorem c6_clean_text_conditionally_idempotent (s : String)
    (h : ∀ c ∈ s.toList, c ≠ '[' ∧ c ≠ '\x7b') :
    cleanText (cleanText s) = cleanText s := by
  by_cases hs : s = ""
  · rw [hs]
    rfl
  · have hX1 : ∀ c ∈ collapseWs s.toList, c ≠ '[' := by
      intro c hc
      rcases mem_collapseWs hc with h1 | ⟨h1, _⟩
      · rw [h1]; decide
      · exact (h c h1).1
    have hX2 : ∀ c ∈ collapseWs s.toList, c ≠ '\x7b' := by
      intro c hc
      rcases mem_collapseWs hc with h1 | ⟨h1, _⟩
      · rw [h1]; decide
      · exact (h c h1).2
    have hstep : cleanText s =
        String.mk (pyStrip (collapseWs s.toList)) := by
      rw [cleanText, if_neg hs, removeBrackets_eq_self hX1,
        removeBraces_eq_self hX2]
    rw [hstep]
    by_cases hy : String.mk (pyStrip (collapseWs s.toList)) = ""
    · rw [hy]
      rfl
    · have hy1 : ∀ c ∈ pyStrip (collapseWs s.toList), c ≠ '[' :=
        fun c hc => hX1 c (mem_pyStrip hc)
      have hy2 : ∀ c ∈ pyStrip (collapseWs s.toList), c ≠ '\x7b' :=
        fun c hc => hX2 c (mem_pyStrip hc)
      have hsp : spacesAreSpace (pyStrip (collapseWs s.toList)) :=
        fun c hc => collapseWs_spaces s.toList c (mem_pyStrip hc)
      have hadj : noAdjSpaces (pyStrip (collapseWs s.toList)) :=
        pyStrip_noAdj (collapseWs_noAdj s.toList)
      rw [cleanText, if_neg hy, toList_mk,
        collapseWs_eq_self _ hsp hadj,
        removeBrackets_eq_self hy1, removeBraces_eq_self hy2,
        pyStrip_idem]

/-- Closed instance of `c6_clean_text_conditionally_idempotent` on a
bracket-free noisy string. -/
theorem c6_clean_text_conditionally_idempotent_witness :
    cleanText (cleanText "  The  Doctor \t returns  ") =
      cleanText "  The  Doctor \t returns  " :=
  c6_clean_text_conditionally_idempotent "  The  Doctor \t returns  "
    (by decide)

end DWL
